import Mathlib

/-!
Shallow embedding of the job-lifecycle orchestrator of the face_swap_ai
backend (`backend/app`): the job service (intake, dispatch, callback,
reconciliation), the dispatch worker's failure handling, the retry route,
the content/config fingerprint, and the signed asset-reference tokens.

Conventions of the embedding:
* byte strings are `List Nat` (each byte `< 256`);
* SQLAlchemy sessions become explicit `Db := List Job` state passing; a
  commit of a mutated row is `dbUpdate`, a commit of a new row is `dbInsert`;
* the storage provider becomes an append-only write log plus the returned
  reference path, so "number of storage writes" is observable;
* `datetime.utcnow()` / `time.time()` become an explicit `now : Nat`
  parameter (one instant per operation);
* the SHA-256 hex digest (`hashlib`, outside this repository) is a function
  parameter `sha : Bytes → Bytes` of the fingerprint definitions, and
  HMAC-SHA256 is a parameter `mac` of the token signer;
* Python exceptions become `Except String`; where the source commits state
  before raising, the embedded function returns the committed state
  alongside the outcome.
-/

namespace FaceSwap

instance {ε α : Type} [DecidableEq ε] [DecidableEq α] : DecidableEq (Except ε α)
  | .error e, .error f =>
      if h : e = f then .isTrue (by rw [h]) else .isFalse (by simp [h])
  | .error _, .ok _ => .isFalse (by simp)
  | .ok _, .error _ => .isFalse (by simp)
  | .ok a, .ok b =>
      if h : a = b then .isTrue (by rw [h]) else .isFalse (by simp [h])

/-! ### Bytes, strings, Python truthiness -/

/-- Byte strings, one natural (< 256) per byte. -/
abbrev Bytes := List Nat

/-- UTF-8 encoding of a string, modelled as its list of code points
(exact for the ASCII data used throughout this code base). -/
def strBytes (s : String) : Bytes := s.data.map Char.toNat

/-- Python truthiness of an optional string: `None` and `""` are falsy. -/
def truthyStr : Option String → Bool
  | none => false
  | some s => !s.isEmpty

/-- Python truthiness of optional bytes: `None` and `b""` are falsy. -/
def truthyBytes : Option Bytes → Bool
  | none => false
  | some b => !b.isEmpty

/-- Python `str()` of a bool (`"True"` / `"False"`). -/
def pyStr (b : Bool) : String := if b then "True" else "False"

/-- Python `x or default` for an optional string (`None` and `""` fall back). -/
def orDefault (o : Option String) (d : String) : String :=
  if truthyStr o then o.getD "" else d

/-- `str.lower()` (ASCII). -/
def lowerStr (s : String) : String := String.mk (s.data.map Char.toLower)

/-- `str.upper()` (ASCII). -/
def upperStr (s : String) : String := String.mk (s.data.map Char.toUpper)

/-! ### Enumerations from `app/schemas/job.py` -/

inductive JobMode
  | video_swap
  | photo_sing
deriving DecidableEq

def JobMode.val : JobMode → String
  | .video_swap => "video_swap"
  | .photo_sing => "photo_sing"

inductive QualityTier
  | fast
  | balanced
  | max
deriving DecidableEq

def QualityTier.val : QualityTier → String
  | .fast => "fast"
  | .balanced => "balanced"
  | .max => "max"

/-- `AspectRatio` of the schemas module. -/
inductive Aspect
  | portrait
  | square
  | vertical
deriving DecidableEq

def Aspect.val : Aspect → String
  | .portrait => "9:16"
  | .square => "1:1"
  | .vertical => "4:5"

/-! ### `app/utils/hash_utils.py` -/

/-- The byte stream `stable_config_hash` feeds to its digest: every part
followed by a `|` byte (124), concatenated. -/
def encodeParts (parts : List Bytes) : Bytes :=
  (parts.map (fun p => p ++ [124])).flatten

/-- `stable_config_hash(parts)`: SHA-256 hex digest over the parts, each
followed by `b"|"`. The digest itself (`hashlib`, not part of this
repository) is the parameter `sha`. -/
def stable_config_hash (sha : Bytes → Bytes) (parts : List Bytes) : Bytes :=
  sha (encodeParts parts)

/-! ### The `Job` row (`app/models/job.py`) -/

structure Job where
  id : Nat
  mode : String
  quality : String
  enable_4k : Bool
  aspect : String
  config_hash : Bytes
  status : String
  stage : String
  stage_timings : List (String × Nat × Nat)
  reference_video_path : String
  source_image_path : String
  driving_audio_path : Option String
  output_path : Option String
  runpod_job_id : Option String
  request_id : Option String
  error_message : Option String
  created_at : Nat
  updated_at : Nat
  started_at : Option Nat
  finished_at : Option Nat
deriving DecidableEq

/-! ### The job store (SQLAlchemy session against the `jobs` table) -/

abbrev Db := List Job

/-- `db.get(Job, job_id)`. -/
def dbGet (db : Db) (id : Nat) : Option Job :=
  db.find? (fun j => j.id = id)

/-- Commit of a mutated row: replace the row with the same identifier. -/
def dbUpdate (db : Db) (j : Job) : Db :=
  db.map (fun k => if k.id = j.id then j else k)

/-- Commit of a freshly added row. -/
def dbInsert (db : Db) (j : Job) : Db := db ++ [j]

/-! ### Storage provider (`app/providers/storage`), as a write log -/

/-- One storage write: job identifier, file name, content. -/
abbrev Store := List (Nat × String × Bytes)

/-- `storage.persist_upload(job_id, file_name, content)`: records the write
and returns the reference path. -/
def persist_upload (st : Store) (jobId : Nat) (name : String) (content : Bytes) :
    String × Store :=
  ("uploads/" ++ toString jobId ++ "/" ++ name, st ++ [(jobId, name, content)])

/-- `storage.persist_output(job_id, file_name, content)`. -/
def persist_output (st : Store) (jobId : Nat) (name : String) (content : Bytes) :
    String × Store :=
  ("outputs/" ++ toString jobId ++ "/" ++ name, st ++ [(jobId, name, content)])

/-- Combined mutable state visible to the job service. -/
structure St where
  db : Db
  store : Store
deriving DecidableEq

/-! ### Settings (`app/core/config.py`) -/

structure Settings where
  max_upload_mb : Nat
deriving DecidableEq

def defaultSettings : Settings := { max_upload_mb := 500 }

def allowed_video_ext : List String := [".mp4", ".mov", ".mkv", ".webm"]
def allowed_image_ext : List String := [".jpg", ".jpeg", ".png", ".webp"]
def allowed_audio_ext : List String := [".wav", ".mp3", ".m4a", ".aac"]

/-! ### `app/services/media_validation.py` -/

/-- `pathlib.Path(name).suffix`: the part of the final component from the
last dot on, empty when the dot is absent, first, or last. -/
def pathSuffix (name : String) : String :=
  let r := name.data.reverse
  let after := r.takeWhile (fun c => c ≠ '.')
  match r.dropWhile (fun c => c ≠ '.') with
  | [] => ""
  | _ :: before =>
      if before.isEmpty ∨ after.isEmpty then ""
      else String.mk ('.' :: after.reverse)

def allowedExt : String → List String
  | "video" => allowed_video_ext
  | "image" => allowed_image_ext
  | "audio" => allowed_audio_ext
  | _ => []

/-- `validate_extension(path, kind)` succeeds iff the lower-cased suffix is
in the allowed list for the kind. -/
def validate_extension (name : String) (kind : String) : Bool :=
  (allowedExt kind).contains (lowerStr (pathSuffix name))

/-- `JobService._validate_size`: content must not exceed
`max_upload_mb * 1024 * 1024` bytes. `true` means the check passes. -/
def validate_size (cfg : Settings) (content : Bytes) : Bool :=
  content.length ≤ cfg.max_upload_mb * 1024 * 1024

/-! ### Intake (`JobService.create_job`, `JobService.list_existing_by_hash`) -/

/-- A submission as received by `create_job`. -/
structure Submission where
  mode : JobMode
  quality : QualityTier
  enable_4k : Bool
  aspect : Aspect
  reference_video_name : String
  reference_video : Bytes
  source_image_name : String
  source_image : Bytes
  driving_audio_name : Option String
  driving_audio : Option Bytes
deriving DecidableEq

/-- The driving-audio fingerprint part:
`self._sha256_bytes(driving_audio_bytes) if driving_audio_bytes else ""`. -/
def audio_hash_part (sha : Bytes → Bytes) (ab : Option Bytes) : Bytes :=
  if truthyBytes ab then sha (ab.getD []) else []

/-- The fingerprint `config_hash` computed inside `create_job`: a stable
hash over mode, quality, `str(enable_4k)`, aspect ratio, and the content
hashes of the three inputs. File names do not occur. -/
def computeConfigHash (sha : Bytes → Bytes) (s : Submission) : Bytes :=
  stable_config_hash sha
    [ strBytes s.mode.val
    , strBytes s.quality.val
    , strBytes (pyStr s.enable_4k)
    , strBytes s.aspect.val
    , sha s.reference_video
    , sha s.source_image
    , audio_hash_part sha s.driving_audio ]

/-- `b` is strictly newer than `a` under `ORDER BY created_at DESC, id DESC`. -/
def newerJob (a b : Job) : Prop :=
  a.created_at < b.created_at ∨ (a.created_at = b.created_at ∧ a.id < b.id)

instance (a b : Job) : Decidable (newerJob a b) := by
  unfold newerJob
  exact inferInstance

/-- Scan of the rows keeping the newest match for `config_hash = h`. -/
def newestWith (h : Bytes) : Db → Option Job → Option Job
  | [], best => best
  | j :: rest, best =>
      if j.config_hash = h then
        match best with
        | none => newestWith h rest (some j)
        | some b => newestWith h rest (if newerJob b j then some j else some b)
      else newestWith h rest best

/-- `JobService.list_existing_by_hash`: the newest row with the given
`config_hash` (any status), newest by `created_at` then by `id`
(`ORDER BY created_at DESC, id DESC LIMIT 1`). -/
def list_existing_by_hash (db : Db) (h : Bytes) : Option Job :=
  newestWith h db none

/-- Status set of the dedup check in `create_job`. -/
def activeStatus (s : String) : Bool :=
  s = "queued" || s = "processing" || s = "done"

/-- The storage-and-insert tail of `create_job`, reached when no active row
with the fingerprint exists. -/
def create_job_store (newId : Nat) (now : Nat) (st : St) (s : Submission)
    (h : Bytes) : Job × St :=
  let r1 := persist_upload st.store newId s.reference_video_name s.reference_video
  let r2 := persist_upload r1.2 newId s.source_image_name s.source_image
  let r3 :=
    if truthyStr s.driving_audio_name && truthyBytes s.driving_audio then
      let r := persist_upload r2.2 newId (s.driving_audio_name.getD "")
        (s.driving_audio.getD [])
      (some r.1, r.2)
    else (none, r2.2)
  let job : Job :=
    { id := newId
      mode := s.mode.val
      quality := s.quality.val
      enable_4k := s.enable_4k
      aspect := s.aspect.val
      config_hash := h
      status := "queued"
      stage := "queued"
      stage_timings := [("queued", now, now)]
      reference_video_path := r1.1
      source_image_path := r2.1
      driving_audio_path := r3.1
      output_path := none
      runpod_job_id := none
      request_id := none
      error_message := none
      created_at := now
      updated_at := now
      started_at := none
      finished_at := none }
  (job, { db := dbInsert st.db job, store := r3.2 })

/-- `JobService.create_job`: validate extensions and sizes, compute the
fingerprint, return the newest row with that fingerprint unchanged when its
status is active, otherwise persist the inputs and insert a fresh row. -/
def create_job (sha : Bytes → Bytes) (cfg : Settings) (newId : Nat) (now : Nat)
    (st : St) (s : Submission) : Except String (Job × St) :=
  if ¬ validate_extension s.reference_video_name "video" then
    .error "unsupported video extension"
  else if ¬ validate_extension s.source_image_name "image" then
    .error "unsupported image extension"
  else if truthyStr s.driving_audio_name
      ∧ ¬ validate_extension (s.driving_audio_name.getD "") "audio" then
    .error "unsupported audio extension"
  else if ¬ validate_size cfg s.reference_video then
    .error "file exceeds max size"
  else if ¬ validate_size cfg s.source_image then
    .error "file exceeds max size"
  else if truthyBytes s.driving_audio
      ∧ ¬ validate_size cfg (s.driving_audio.getD []) then
    .error "file exceeds max size"
  else
    let h := computeConfigHash sha s
    match list_existing_by_hash st.db h with
    | some existing =>
        if activeStatus existing.status then .ok (existing, st)
        else .ok (create_job_store newId now st s h)
    | none => .ok (create_job_store newId now st s h)

/-! ### Stage transitions (`JobService._start_stage`) -/

/-- The timing-map mutation of `_start_stage`: keep the original start of a
re-entered stage, always move its end to `now`. -/
def timingsSet (ts : List (String × Nat × Nat)) (stage : String) (now : Nat) :
    List (String × Nat × Nat) :=
  if ts.any (fun e => e.1 = stage) then
    ts.map (fun e => if e.1 = stage then (e.1, e.2.1, now) else e)
  else ts ++ [(stage, now, now)]

/-- `JobService._start_stage(job, stage, status)`. -/
def start_stage (job : Job) (stage status : String) (now : Nat) : Job :=
  { job with
      stage := stage
      status := status
      started_at := if job.started_at.isSome then job.started_at else some now
      stage_timings := timingsSet job.stage_timings stage now
      updated_at := now }

/-! ### Dispatch (`JobService.dispatch_to_compute` and the worker's
exception handler in `InProcessQueueProvider._worker`) -/

/-- What `compute.submit_job` returned, when it did not raise. -/
structure SubmitOk where
  runpod_job_id : Option String
  request_id : Option String
deriving DecidableEq

/-- `JobService.dispatch_to_compute`: re-read the job, skip unless its
status is `queued`/`retry`, advance through `preprocessing` and
`generating` (committing each), then call the gateway. The result pairs
the committed store with the outcome; a gateway error escapes after the
`generating` commit. -/
def dispatch_to_compute (submit : Except String SubmitOk) (now : Nat)
    (db : Db) (jobId : Nat) : Db × Except String Unit :=
  match dbGet db jobId with
  | none => (db, .ok ())
  | some job =>
    if ¬ (job.status = "queued" ∨ job.status = "retry") then (db, .ok ())
    else
      let j1 := start_stage job "preprocessing" "processing" now
      let db1 := dbUpdate db j1
      let j2 := start_stage j1 "generating" "processing" now
      let db2 := dbUpdate db1 j2
      match submit with
      | .error e => (db2, .error e)
      | .ok r =>
          let j3 := { j2 with
            runpod_job_id := r.runpod_job_id
            request_id := r.request_id
            updated_at := now }
          (dbUpdate db2 j3, .ok ())

/-- The dequeue branch of `InProcessQueueProvider._worker`: run the
dispatch; if it raised, re-read the job and mark it `failed` with the
raised message. The handler does not touch `finished_at`. -/
def worker_dispatch (submit : Except String SubmitOk) (now : Nat)
    (db : Db) (jobId : Nat) : Db :=
  let r := dispatch_to_compute submit now db jobId
  match r.2 with
  | .ok _ => r.1
  | .error e =>
    match dbGet r.1 jobId with
    | none => r.1
    | some job =>
        dbUpdate r.1
          { job with
              status := "failed"
              stage := "failed"
              error_message := some e
              updated_at := now }

/-! ### Retry (`routes_jobs.retry_job`) -/

/-- The explicit retry route: only `failed` jobs can be retried; the job is
re-armed as `retry`/`queued` with the error cleared. `finished_at` is not
touched. -/
def retry_job (now : Nat) (db : Db) (jobId : Nat) : Except String (Job × Db) :=
  match dbGet db jobId with
  | none => .error "job not found"
  | some job =>
    if job.status ≠ "failed" then .error "only failed jobs can be retried"
    else
      let j := { job with
        status := "retry"
        stage := "queued"
        error_message := none
        updated_at := now }
      .ok (j, dbUpdate db j)

/-! ### Base64 (the `base64` standard-library routines used by the code)

`b64decode` below is strict: a character outside the alphabet rejects the
input, where CPython first discards such characters and then (for the
inputs arising here) rejects on padding. Both behaviours classify every
such input as malformed, which is the only fact the development uses. -/

/-- The base64 alphabet with the two variant characters supplied
(standard `+/`, URL-safe `-_`). -/
def b64Alpha (c62 c63 : Char) : List Char :=
  ((List.range 26).map (fun i => Char.ofNat (65 + i)))
  ++ ((List.range 26).map (fun i => Char.ofNat (97 + i)))
  ++ ((List.range 10).map (fun i => Char.ofNat (48 + i)))
  ++ [c62, c63]

def alphaStd : List Char := b64Alpha '+' '/'
def alphaUrl : List Char := b64Alpha '-' '_'

def b64Idx (alpha : List Char) (c : Char) : Option Nat :=
  alpha.findIdx? (fun d => d = c)

def b64EncodeChars (alpha : List Char) : Bytes → List Char
  | a :: b :: c :: rest =>
      alpha.getD (a / 4) 'A'
      :: alpha.getD ((a % 4) * 16 + b / 16) 'A'
      :: alpha.getD ((b % 16) * 4 + c / 64) 'A'
      :: alpha.getD (c % 64) 'A'
      :: b64EncodeChars alpha rest
  | [a, b] =>
      [alpha.getD (a / 4) 'A', alpha.getD ((a % 4) * 16 + b / 16) 'A',
       alpha.getD ((b % 16) * 4) 'A', '=']
  | [a] =>
      [alpha.getD (a / 4) 'A', alpha.getD ((a % 4) * 16) 'A', '=', '=']
  | [] => []

def b64DecodeChars (alpha : List Char) : List Char → Except String Bytes
  | [] => .ok []
  | c1 :: c2 :: c3 :: c4 :: rest =>
    (match b64Idx alpha c1, b64Idx alpha c2 with
    | some n1, some n2 =>
      if c4 = '=' then
        if rest ≠ [] then .error "invalid base64"
        else if c3 = '=' then .ok [n1 * 4 + n2 / 16]
        else
          match b64Idx alpha c3 with
          | some n3 => .ok [n1 * 4 + n2 / 16, (n2 % 16) * 16 + n3 / 4]
          | none => .error "invalid base64"
      else
        match b64Idx alpha c3, b64Idx alpha c4 with
        | some n3, some n4 =>
          (match b64DecodeChars alpha rest with
          | .ok bs =>
              .ok ((n1 * 4 + n2 / 16)
                :: ((n2 % 16) * 16 + n3 / 4)
                :: ((n3 % 4) * 64 + n4) :: bs)
          | .error e => .error e)
        | _, _ => .error "invalid base64"
    | _, _ => .error "invalid base64")
  | _ => .error "invalid base64"

def b64encode (alpha : List Char) (bs : Bytes) : String :=
  String.mk (b64EncodeChars alpha bs)

def b64decode (alpha : List Char) (s : String) : Except String Bytes :=
  b64DecodeChars alpha s.data

/-! ### Callback handling (`JobService.handle_callback`)

`payload.metadata` is never read by the handler and is omitted. The output
download (`httpx`) is the parameter `fetch`. Where the source commits and
then raises, the returned state carries the committed rows. -/

structure CallbackPayload where
  job_id : Nat
  status : String
  output_url : Option String
  output_base64 : Option String
  error : Option String
deriving DecidableEq

/-- `payload.status.lower() in set("failed", "error")`. -/
def failStatus (s : String) : Bool :=
  lowerStr s = "failed" || lowerStr s = "error"

def handle_callback (fetch : String → Except String Bytes) (now : Nat)
    (st : St) (p : CallbackPayload) : St × Except String Job :=
  match dbGet st.db p.job_id with
  | none => (st, .error "job not found")
  | some job =>
    if job.status = "done" ∧ job.output_path.isSome then (st, .ok job)
    else if failStatus p.status then
      let j := { start_stage job "failed" "failed" now with
        error_message := some (orDefault p.error "runpod worker failed")
        finished_at := some now }
      ({ st with db := dbUpdate st.db j }, .ok j)
    else
      let j1 := start_stage job "enhancing" "processing" now
      let db1 := dbUpdate st.db j1
      let ob : Except String Bytes :=
        if truthyStr p.output_base64 then
          b64decode alphaStd (p.output_base64.getD "")
        else if truthyStr p.output_url then fetch (p.output_url.getD "")
        else .error "callback missing output_base64 or output_url"
      match ob with
      | .error e => ({ st with db := db1 }, .error e)
      | .ok bytes =>
        let r := persist_output st.store job.id "result.mp4" bytes
        let j2 := start_stage j1 "packaging" "processing" now
        let j3 := start_stage j2 "done" "done" now
        let j4 := { j3 with
          output_path := some r.1
          error_message := none
          finished_at := some now }
        ({ db := dbUpdate db1 j4, store := r.2 }, .ok j4)

/-! ### Reconciliation (`JobService._reconcile_runpod_status`) -/

/-- The nested `output` object of a gateway status body. A `none` models
both an absent key and a non-dict value. -/
structure OutputBody where
  status : Option String
  error : Option String
  output_url : Option String
  output_base64 : Option String
deriving DecidableEq

structure StatusBody where
  status : Option String
  error : Option String
  output : Option OutputBody
deriving DecidableEq

def reconcile_runpod_status (fetch : String → Except String Bytes)
    (sbody : StatusBody) (now : Nat) (st : St) (job : Job) :
    St × Except String Unit :=
  if ¬ truthyStr job.runpod_job_id then (st, .ok ())
  else
    let run_status := upperStr (sbody.status.getD "")
    if run_status = "IN_QUEUE" ∨ run_status = "IN_PROGRESS" then (st, .ok ())
    else if run_status = "FAILED" ∨ run_status = "CANCELLED"
        ∨ run_status = "TIMED_OUT" ∨ run_status = "NOT_FOUND" then
      let j := { start_stage job "failed" "failed" now with
        error_message := some (orDefault sbody.error "runpod job failed")
        finished_at := some now }
      ({ st with db := dbUpdate st.db j }, .ok ())
    else if run_status ≠ "COMPLETED" then (st, .ok ())
    else
      match sbody.output with
      | none =>
        let j := { start_stage job "failed" "failed" now with
          error_message := some "runpod completed without output payload"
          finished_at := some now }
        ({ st with db := dbUpdate st.db j }, .ok ())
      | some out =>
        if lowerStr (out.status.getD "") = "failed"
            ∨ lowerStr (out.status.getD "") = "error" then
          let j := { start_stage job "failed" "failed" now with
            error_message := some (orDefault out.error "worker failed")
            finished_at := some now }
          ({ st with db := dbUpdate st.db j }, .ok ())
        else
          let p : CallbackPayload :=
            { job_id := job.id
              status := "completed"
              output_url := out.output_url
              output_base64 := out.output_base64
              error := none }
          let r := handle_callback fetch now st p
          (r.1, r.2.map (fun _ => ()))

/-! ### Asset-reference signer (`app/utils/signing.py`)

`sign` is modelled on the payload built by `build_asset_url`:
`json.dumps({"exp": exp, "path": path}, separators=(",",":"), sort_keys=True)`
serializes, with sorted keys, to `\x7b"exp":<n>,"path":"<path>"\x7d`; the
model is exact for paths containing no character that JSON escapes. The
HMAC-SHA256 hex digest is the parameter `mac` (secret bytes and body bytes
to digest string). Python's distinct `ValueError`s are the constructors of
`VerifyError`: the signature and expiry rejections keep their identity,
every other rejection (undecodable token, missing separator, unparsable
payload) is `malformed`. -/

def digitChar (n : Nat) : Char := Char.ofNat (48 + n)

/-- Decimal digits of a natural, most significant first — `str(int)`.
Structural recursion on a fuel bound (`n < fuel` at every call), so that
the function reduces definitionally. -/
def natDecimalGo : Nat → Nat → List Char → List Char
  | 0, _, acc => acc
  | fuel + 1, n, acc =>
      if n < 10 then digitChar n :: acc
      else natDecimalGo fuel (n / 10) (digitChar (n % 10) :: acc)

def natDecimal (n : Nat) : List Char := natDecimalGo (n + 1) n []

/-- Value of a decimal digit string. -/
def digitsVal (cs : List Char) : Nat :=
  cs.foldl (fun acc c => acc * 10 + (c.toNat - 48)) 0

/-- Strip an expected literal from the front, or fail. -/
def dropLit : List Char → List Char → Option (List Char)
  | [], s => some s
  | _ :: _, [] => none
  | c :: cs, d :: s => if c = d then dropLit cs s else none

/-- The canonical serialized payload of a token, as characters. -/
def serializePayloadChars (path : String) (exp : Nat) : List Char :=
  "\x7b\"exp\":".data ++ natDecimal exp
    ++ ",\"path\":\"".data ++ path.data ++ "\"\x7d".data

/-- Strict parse of the canonical payload: `json.loads` restricted to the
shape produced by `sign` (exact for paths free of `"`). Returns
`(exp, path)`. -/
def parsePayloadChars (cs : List Char) : Option (Nat × String) :=
  match dropLit "\x7b\"exp\":".data cs with
  | none => none
  | some s1 =>
    let ds := s1.takeWhile Char.isDigit
    let s2 := s1.dropWhile Char.isDigit
    if ds.isEmpty then none
    else
      match dropLit ",\"path\":\"".data s2 with
      | none => none
      | some s3 =>
        let p := s3.takeWhile (fun c => c ≠ '"')
        let s4 := s3.dropWhile (fun c => c ≠ '"')
        match dropLit "\"\x7d".data s4 with
        | none => none
        | some s5 =>
            if s5.isEmpty then some (digitsVal ds, String.mk p) else none

/-- `decoded.rsplit(b".", 1)`: split at the last `.` byte (46), or fail
when no dot occurs (the tuple unpacking raises). -/
def rsplitDot (bs : Bytes) : Option (Bytes × Bytes) :=
  let r := bs.reverse
  let sigR := r.takeWhile (fun b => b ≠ 46)
  match r.dropWhile (fun b => b ≠ 46) with
  | [] => none
  | _ :: bodyR => some (bodyR.reverse, sigR.reverse)

inductive VerifyError
  | invalidSignature
  | expired
  | malformed
deriving DecidableEq

/-- `TokenSigner.sign` on the `build_asset_url` payload `(path, exp)`. -/
def sign_token (mac : Bytes → Bytes → String) (secret : String)
    (path : String) (exp : Nat) : String :=
  let body := (serializePayloadChars path exp).map Char.toNat
  b64encode alphaUrl (body ++ 46 :: strBytes (mac (strBytes secret) body))

/-- `TokenSigner.verify`: base64-decode, split payload from signature at
the last dot, recompute the HMAC and compare (before anything else),
parse the payload, reject when `exp < now`, otherwise return
`(path, exp)`. -/
def verify_token (mac : Bytes → Bytes → String) (secret : String)
    (nowT : Nat) (token : String) : Except VerifyError (String × Nat) :=
  match b64decode alphaUrl token with
  | .error _ => .error .malformed
  | .ok decoded =>
    match rsplitDot decoded with
    | none => .error .malformed
    | some bs =>
      if bs.2 ≠ strBytes (mac (strBytes secret) bs.1) then
        .error .invalidSignature
      else
        match parsePayloadChars (bs.1.map Char.ofNat) with
        | none => .error .malformed
        | some pe =>
            if pe.1 < nowT then .error .expired else .ok (pe.2, pe.1)

/-! ### Derived notions used by the theorems -/

/-- All intake validations of `create_job` pass. -/
def submissionValid (cfg : Settings) (s : Submission) : Bool :=
  validate_extension s.reference_video_name "video"
  && validate_extension s.source_image_name "image"
  && (!truthyStr s.driving_audio_name
      || validate_extension (s.driving_audio_name.getD "") "audio")
  && validate_size cfg s.reference_video
  && validate_size cfg s.source_image
  && (!truthyBytes s.driving_audio || validate_size cfg (s.driving_audio.getD []))

/-- The dedup lookup found nothing reusable. -/
def staleOrNone : Option Job → Bool
  | none => true
  | some j => !(activeStatus j.status)

/-- The input uploads `create_job` performs when it creates a row. -/
def uploadsOf (id : Nat) (s : Submission) : Store :=
  (id, s.reference_video_name, s.reference_video)
    :: (id, s.source_image_name, s.source_image)
    :: (if truthyStr s.driving_audio_name && truthyBytes s.driving_audio then
          [(id, s.driving_audio_name.getD "", s.driving_audio.getD [])]
        else [])

/-- A submission with the driving audio removed entirely. -/
def noAudio (s : Submission) : Submission :=
  { s with driving_audio_name := none, driving_audio := none }

/-- Modelled from the spec words (for comparison only, not from the code):
the newest Job among those whose fingerprint matches AND whose status is in
the active set — the lookup §4.2 describes. -/
def spec_newest_active (db : Db) (h : Bytes) : Option Job :=
  list_existing_by_hash (db.filter (fun j => activeStatus j.status)) h

/-! ### Concrete fixtures for witnesses and counterexamples -/

def subA : Submission :=
  { mode := .video_swap
    quality := .balanced
    enable_4k := false
    aspect := .portrait
    reference_video_name := "r.mp4"
    reference_video := [1]
    source_image_name := "s.jpg"
    source_image := [2]
    driving_audio_name := none
    driving_audio := none }

/-- Fingerprint of `subA` under the identity stand-in digest. -/
def hA : Bytes := computeConfigHash id subA

/-- A job row template over `hA`. -/
def jobT (i : Nat) (c : Nat) (st sg : String) : Job :=
  { id := i
    mode := "video_swap"
    quality := "balanced"
    enable_4k := false
    aspect := "9:16"
    config_hash := hA
    status := st
    stage := sg
    stage_timings := [("queued", 0, 0)]
    reference_video_path := "uploads/1/r.mp4"
    source_image_path := "uploads/1/s.jpg"
    driving_audio_path := none
    output_path := none
    runpod_job_id := none
    request_id := none
    error_message := none
    created_at := c
    updated_at := c
    started_at := none
    finished_at := none }

def subExe : Submission :=
  { subA with driving_audio_name := some "a.exe", driving_audio := some [] }

def subMp3 : Submission :=
  { subA with driving_audio_name := some "a.mp3", driving_audio := some [] }

/-- `subA` with different client-chosen file names and a different mode. -/
def subB : Submission :=
  { subA with mode := .photo_sing
              reference_video_name := "clip2.mov"
              source_image_name := "face2.png" }

/-- `subA` with identical semantics but different client-chosen names. -/
def subANames : Submission :=
  { subA with reference_video_name := "other.mov"
              source_image_name := "other.png" }

def noFetch : String → Except String Bytes := fun _ => .error "network disabled"

def procJob : Job :=
  { jobT 1 0 "processing" "generating" with runpod_job_id := some "rp-1" }

def doneJob : Job :=
  { procJob with
      status := "done", stage := "done"
      output_path := some "outputs/1/result.mp4", finished_at := some 3 }

def queuedJob : Job := jobT 1 0 "queued" "queued"

def failedJob : Job :=
  { jobT 1 0 "failed" "failed" with finished_at := some 7, error_message := some "x" }

def cbBoth : CallbackPayload :=
  { job_id := 1
    status := "completed"
    output_url := some "http://x/out.mp4"
    output_base64 := some "QQ=="
    error := none }

def cbNone : CallbackPayload :=
  { job_id := 1, status := "completed"
    output_url := none, output_base64 := none, error := none }

def sbLower : StatusBody :=
  { status := some "completed", error := none, output := none }

def sbUnk : StatusBody :=
  { status := some "WEIRD", error := none, output := none }

/-- A concrete stand-in MAC for closed evaluations of the signer. -/
def macW : Bytes → Bytes → String := fun _ _ => "0a"

def tokW : String := sign_token macW "s" "p" 5

/-- `tokW` with bit 6 of its first character flipped (a single-bit
mutation; it turns the leading base64 character `e` into `%`). -/
def tokWmut : String :=
  match tokW.data with
  | [] => tokW
  | c :: cs => String.mk (Char.ofNat (c.toNat ^^^ 64) :: cs)

/-! ## Job-store lemmas -/

theorem dbGet_id (db : Db) (i : Nat) (j : Job) (h : dbGet db i = some j) :
    j.id = i := by
  have hp := List.find?_some h
  simpa using hp

theorem dbGet_dbUpdate_self (db : Db) (i : Nat) (job j' : Job)
    (hget : dbGet db i = some job) (hid : j'.id = i) :
    dbGet (dbUpdate db j') i = some j' := by
  induction db with
  | nil => simp [dbGet] at hget
  | cons k rest ih =>
      by_cases hk : k.id = i
      · simp [dbGet, dbUpdate, List.find?, hid, hk]
      · have hk' : (k.id = j'.id) = False := by
          rw [hid]; exact eq_false hk
        have hget' : dbGet rest i = some job := by
          simpa [dbGet, List.find?, hk] using hget
        simpa [dbGet, dbUpdate, List.find?, hk, hk'] using ih hget'

/-! ## C2 -/

/-- C2: for every Job whose status is `done` and whose output reference is
recorded, delivering a valid callback of any status via `handle_callback`
is a no-op that returns the existing Job unchanged, and a second delivery
for the same job succeeds with the same unchanged result. -/
theorem done_job_callback_noop
    (fetch : String → Except String Bytes) (now now2 : Nat) (st : St)
    (p p2 : CallbackPayload) (job : Job)
    (hget : dbGet st.db p.job_id = some job)
    (hdone : job.status = "done") (hout : job.output_path.isSome = true)
    (hid : p2.job_id = p.job_id) :
    handle_callback fetch now st p = (st, .ok job)
      ∧ handle_callback fetch now2 (handle_callback fetch now st p).1 p2
          = (st, .ok job) := by
  have h1 : handle_callback fetch now st p = (st, .ok job) := by
    unfold handle_callback
    rw [hget]
    simp [hdone, hout]
  refine ⟨h1, ?_⟩
  rw [h1]
  unfold handle_callback
  rw [hid, hget]
  simp [hdone, hout]

theorem done_job_callback_noop_witness :
    handle_callback noFetch 9 ⟨[doneJob], []⟩ cbNone = (⟨[doneJob], []⟩, .ok doneJob)
      ∧ handle_callback noFetch 11
            (handle_callback noFetch 9 ⟨[doneJob], []⟩ cbNone).1 cbNone
          = (⟨[doneJob], []⟩, .ok doneJob) :=
  done_job_callback_noop noFetch 9 11 ⟨[doneJob], []⟩ cbNone cbNone doneJob
    (by decide) (by decide) (by decide) (by decide)

/-! ## C10 -/

/-- C10: a success-status callback carrying neither `output_base64` nor
`output_url` makes `handle_callback` fail, but only after the job was
committed with status `processing` and stage `enhancing` — the failing
call still mutates the Job. -/
theorem callback_missing_output_commits
    (fetch : String → Except String Bytes) (now : Nat) (st : St)
    (p : CallbackPayload) (job : Job)
    (hget : dbGet st.db p.job_id = some job)
    (hnd : ¬ (job.status = "done" ∧ job.output_path.isSome))
    (hfs : failStatus p.status = false)
    (hb : truthyStr p.output_base64 = false)
    (hu : truthyStr p.output_url = false) :
    handle_callback fetch now st p
        = ({ st with db := dbUpdate st.db (start_stage job "enhancing" "processing" now) },
           .error "callback missing output_base64 or output_url")
      ∧ dbGet (handle_callback fetch now st p).1.db p.job_id
          = some (start_stage job "enhancing" "processing" now)
      ∧ (start_stage job "enhancing" "processing" now).status = "processing"
      ∧ (start_stage job "enhancing" "processing" now).stage = "enhancing" := by
  have h1 : handle_callback fetch now st p
      = ({ st with db := dbUpdate st.db (start_stage job "enhancing" "processing" now) },
         .error "callback missing output_base64 or output_url") := by
    unfold handle_callback
    rw [hget]
    simp [hnd, hfs, hb, hu]
  refine ⟨h1, ?_, rfl, rfl⟩
  rw [h1]
  exact dbGet_dbUpdate_self st.db p.job_id job _ hget (dbGet_id st.db p.job_id job hget)

theorem callback_missing_output_commits_witness :
    handle_callback noFetch 7 ⟨[procJob], []⟩ cbNone
        = ({ db := dbUpdate [procJob] (start_stage procJob "enhancing" "processing" 7),
             store := [] },
           .error "callback missing output_base64 or output_url")
      ∧ dbGet (handle_callback noFetch 7 ⟨[procJob], []⟩ cbNone).1.db 1
          = some (start_stage procJob "enhancing" "processing" 7)
      ∧ (start_stage procJob "enhancing" "processing" 7).status = "processing"
      ∧ (start_stage procJob "enhancing" "processing" 7).stage = "enhancing" :=
  callback_missing_output_commits noFetch 7 ⟨[procJob], []⟩ cbNone procJob
    (by decide) (by decide) (by decide) (by decide) (by decide)

/-! ## C3 -/

/-- C3: when the gateway submit raises, the worker's handler marks the job
`failed` with the raised message — but, contrary to the claim (and §4.3 of
the spec), it leaves `finished_at` null: evaluating the failing trace shows
`finished_at = none`. -/
theorem gateway_failure_leaves_finished_at_null :
    (dbGet (worker_dispatch (.error "boom") 5 [queuedJob] 1) 1).map
        (fun j => (j.status, j.stage, j.error_message, j.finished_at))
      = some ("failed", "failed", some "boom", none) := by decide

/-! ## C4 -/

/-- C4: the retry route moves a job out of `failed` but does not clear
`finished_at`: after `retry_job` the status is `retry` (outside
`done`/`failed`) while `finished_at` is still set, violating the
terminal-timestamp invariant the claim states. -/
theorem retry_preserves_finished_at :
    (retry_job 9 [failedJob] 1).toOption.map
        (fun p => (p.1.status, p.1.stage, p.1.error_message, p.1.finished_at))
      = some ("retry", "queued", none, some 7)
    ∧ ("retry" ≠ "done" ∧ "retry" ≠ "failed") := by decide

/-! ## C6 -/

/-- C6 counterexample: a success callback carrying BOTH `output_base64` and
`output_url` is accepted and produces a done Job — the code prefers the
inline bytes instead of rejecting the callback as the claim demands. -/
theorem callback_both_fields_accepted :
    truthyStr cbBoth.output_base64 = true
    ∧ truthyStr cbBoth.output_url = true
    ∧ (handle_callback noFetch 7 ⟨[procJob], []⟩ cbBoth).2.toOption.map
          (fun j => (j.status, j.output_path.isSome)) = some ("done", true) := by
  decide

/-- C6 (amended): on a success callback at least one output field must be
present — with neither, `handle_callback` fails with the invalid-callback
error and no done Job is produced; with `output_base64` present (whether or
not `output_url` also is) the inline bytes are decoded, stored, and the Job
becomes `done`. -/
theorem callback_output_field_validation
    (fetch : String → Except String Bytes) (now : Nat) (st : St)
    (p : CallbackPayload) (job : Job) (bytes : Bytes)
    (hget : dbGet st.db p.job_id = some job)
    (hnd : ¬ (job.status = "done" ∧ job.output_path.isSome))
    (hfs : failStatus p.status = false) :
    (truthyStr p.output_base64 = false → truthyStr p.output_url = false →
      (handle_callback fetch now st p).2
        = .error "callback missing output_base64 or output_url")
    ∧ (truthyStr p.output_base64 = true →
        b64decode alphaStd (p.output_base64.getD "") = .ok bytes →
        (handle_callback fetch now st p).2.toOption.map
            (fun j => (j.status, j.output_path, j.finished_at))
          = some ("done", some ("outputs/" ++ toString job.id ++ "/" ++ "result.mp4"),
              some now)
        ∧ (handle_callback fetch now st p).1.store
            = st.store ++ [(job.id, "result.mp4", bytes)]) := by
  constructor
  · intro hb hu
    unfold handle_callback
    rw [hget]
    simp [hnd, hfs, hb, hu]
  · intro hb hdec
    unfold handle_callback
    rw [hget]
    simp [hnd, hfs, hb, hdec, persist_output]
    exact ⟨_, rfl, rfl, rfl, rfl⟩

theorem callback_output_field_validation_witness :
    ((handle_callback noFetch 7 ⟨[procJob], []⟩ cbBoth).2.toOption.map
          (fun j => (j.status, j.output_path, j.finished_at))
        = some ("done", some ("outputs/" ++ toString procJob.id ++ "/" ++ "result.mp4"),
            some 7)
      ∧ (handle_callback noFetch 7 ⟨[procJob], []⟩ cbBoth).1.store
          = [] ++ [(procJob.id, "result.mp4", [65])]) :=
  (callback_output_field_validation noFetch 7 ⟨[procJob], []⟩ cbBoth procJob [65]
      (by decide) (by decide) (by decide)).2 (by decide) (by decide)

/-! ## C9 -/

/-- C9 counterexample: the gateway status string `"completed"` is outside
the claim's literal status set, yet reconciliation is NOT a no-op for it:
the code uppercases the string first, takes the `COMPLETED` path, and (with
no output payload here) rewrites the job to `failed`. -/
theorem reconcile_lowercase_completed_mutates :
    ("completed" ∉ (["IN_QUEUE", "IN_PROGRESS", "FAILED", "CANCELLED",
        "TIMED_OUT", "NOT_FOUND", "COMPLETED"] : List String))
    ∧ (dbGet (reconcile_runpod_status noFetch sbLower 7 ⟨[procJob], []⟩ procJob).1.db 1).map
          (fun j => (j.status, j.finished_at)) = some ("failed", some 7) := by
  decide

/-- C9 (amended): for a `processing` job with a non-null remote handle, a
gateway status string whose UPPERCASED form is outside
`IN_QUEUE, IN_PROGRESS, FAILED, CANCELLED, TIMED_OUT, NOT_FOUND, COMPLETED`
makes the reconciliation step a complete no-op: store and job unchanged. -/
theorem reconcile_unknown_status_noop
    (fetch : String → Except String Bytes) (sbody : StatusBody) (now : Nat)
    (st : St) (job : Job)
    (_hstatus : job.status = "processing")
    (hrp : truthyStr job.runpod_job_id = true)
    (hunk : upperStr (sbody.status.getD "")
        ∉ (["IN_QUEUE", "IN_PROGRESS", "FAILED", "CANCELLED",
            "TIMED_OUT", "NOT_FOUND", "COMPLETED"] : List String)) :
    reconcile_runpod_status fetch sbody now st job = (st, .ok ()) := by
  simp only [List.mem_cons, List.not_mem_nil, or_false, not_or] at hunk
  obtain ⟨h1, h2, h3, h4, h5, h6, h7⟩ := hunk
  unfold reconcile_runpod_status
  simp [hrp, h1, h2, h3, h4, h5, h6, h7]

theorem reconcile_unknown_status_noop_witness :
    reconcile_runpod_status noFetch sbUnk 7 ⟨[procJob], []⟩ procJob
      = (⟨[procJob], []⟩, .ok ()) :=
  reconcile_unknown_status_noop noFetch sbUnk 7 ⟨[procJob], []⟩ procJob
    (by decide) (by decide) (by decide)

/-! ## Intake lemmas -/

theorem create_job_of_valid (sha : Bytes → Bytes) (cfg : Settings)
    (newId now : Nat) (st : St) (s : Submission)
    (hv : submissionValid cfg s = true) :
    create_job sha cfg newId now st s =
      (match list_existing_by_hash st.db (computeConfigHash sha s) with
       | some existing =>
           if activeStatus existing.status then .ok (existing, st)
           else .ok (create_job_store newId now st s (computeConfigHash sha s))
       | none => .ok (create_job_store newId now st s (computeConfigHash sha s))) := by
  simp only [submissionValid, Bool.and_eq_true, Bool.or_eq_true,
    Bool.not_eq_true'] at hv
  obtain ⟨⟨⟨⟨⟨h1, h2⟩, h3⟩, h4⟩, h5⟩, h6⟩ := hv
  rcases h3 with h3 | h3 <;> rcases h6 with h6 | h6 <;>
    simp [create_job, h1, h2, h3, h4, h5, h6]

theorem create_job_store_spec (newId now : Nat) (st : St) (s : Submission)
    (h : Bytes) :
    (create_job_store newId now st s h).1.id = newId
    ∧ (create_job_store newId now st s h).1.created_at = now
    ∧ (create_job_store newId now st s h).1.config_hash = h
    ∧ (create_job_store newId now st s h).1.status = "queued"
    ∧ (create_job_store newId now st s h).2.db
        = st.db ++ [(create_job_store newId now st s h).1]
    ∧ (create_job_store newId now st s h).2.store = st.store ++ uploadsOf newId s := by
  by_cases hc : (truthyStr s.driving_audio_name && truthyBytes s.driving_audio) = true <;>
    simp [create_job_store, uploadsOf, persist_upload, dbInsert, hc]

theorem newestWith_append_newest (h : Bytes) (j : Job) (hj : j.config_hash = h) :
    ∀ (db : Db) (acc : Option Job),
      (∀ k ∈ db, k.created_at < j.created_at) →
      (∀ b, acc = some b → b.created_at < j.created_at) →
      newestWith h (db ++ [j]) acc = some j := by
  intro db
  induction db with
  | nil =>
      intro acc _ hacc
      cases acc with
      | none => simp [newestWith, hj]
      | some b =>
          have hb := hacc b rfl
          simp [newestWith, hj, newerJob, hb]
  | cons k rest ih =>
      intro acc hdb hacc
      have hk : k.created_at < j.created_at := hdb k (by simp)
      by_cases hkh : k.config_hash = h
      · cases acc with
        | none =>
            simp only [List.cons_append, newestWith, hkh, if_true]
            exact ih (some k) (fun m hm => hdb m (by simp [hm]))
              (fun b hb => by cases hb; exact hk)
        | some b =>
            have hb := hacc b rfl
            simp only [List.cons_append, newestWith, hkh, if_true]
            refine ih _ (fun m hm => hdb m (by simp [hm])) (fun c hc => ?_)
            by_cases hn : newerJob b k
            · simp [hn] at hc; cases hc; exact hk
            · simp [hn] at hc; cases hc; exact hb
      · simp only [List.cons_append, newestWith, hkh, if_false]
        exact ih acc (fun m hm => hdb m (by simp [hm])) hacc

theorem list_existing_append_newest (db : Db) (h : Bytes) (j : Job)
    (hj : j.config_hash = h)
    (hold : ∀ k ∈ db, k.created_at < j.created_at) :
    list_existing_by_hash (db ++ [j]) h = some j :=
  newestWith_append_newest h j hj db none hold (fun b hb => by cases hb)

/-! ## C1 -/

/-- C1 counterexample: store holding an older `done` row (id 1) and a newer
`failed` row (id 2) with the same fingerprint. The newest Job with that
fingerprint AND an active status exists (the done row), yet `create_job`
does not return it unchanged: it creates a fresh row (id 99) and performs
two new storage writes of the inputs, because the code looks up the newest
row across ALL statuses and only then filters by status. -/
theorem create_job_dedup_cex :
    spec_newest_active [jobT 1 0 "done" "done", jobT 2 1 "failed" "failed"] hA
        = some (jobT 1 0 "done" "done")
    ∧ (create_job id defaultSettings 99 5
          ⟨[jobT 1 0 "done" "done", jobT 2 1 "failed" "failed"], []⟩ subA).toOption.map
          (fun p => (p.1.id, p.2.store.length))
        = some (99, 2) := by decide

/-- C1 (amended): (a) when the newest Job with the submission's fingerprint
across ALL statuses has status in `queued`/`processing`/`done`, a valid
submission returns that Job unchanged with no storage write and no new row;
(b) when the lookup finds nothing reusable, the submission creates a fresh
row with exactly one set of input writes, and an immediate resubmission
returns that same Job identifier with no further write. -/
theorem create_job_dedup :
    (∀ (sha : Bytes → Bytes) (cfg : Settings) (newId now : Nat) (st : St)
        (s : Submission) (j : Job),
        submissionValid cfg s = true →
        list_existing_by_hash st.db (computeConfigHash sha s) = some j →
        activeStatus j.status = true →
        create_job sha cfg newId now st s = .ok (j, st))
    ∧ (∀ (sha : Bytes → Bytes) (cfg : Settings) (id1 id2 now1 now2 : Nat)
        (st : St) (s : Submission),
        submissionValid cfg s = true →
        staleOrNone (list_existing_by_hash st.db (computeConfigHash sha s)) = true →
        (∀ k ∈ st.db, k.created_at < now1) →
        create_job sha cfg id1 now1 st s
            = .ok (create_job_store id1 now1 st s (computeConfigHash sha s))
          ∧ (create_job_store id1 now1 st s (computeConfigHash sha s)).1.id = id1
          ∧ (create_job_store id1 now1 st s (computeConfigHash sha s)).2.store
              = st.store ++ uploadsOf id1 s
          ∧ create_job sha cfg id2 now2
                (create_job_store id1 now1 st s (computeConfigHash sha s)).2 s
              = .ok ((create_job_store id1 now1 st s (computeConfigHash sha s)).1,
                     (create_job_store id1 now1 st s (computeConfigHash sha s)).2)) := by
  constructor
  · intro sha cfg newId now st s j hv hlook hactive
    rw [create_job_of_valid sha cfg newId now st s hv, hlook]
    simp [hactive]
  · intro sha cfg id1 id2 now1 now2 st s hv hstale hold
    obtain ⟨hid, hcreated, hhash, hstatus, hdb, hstore⟩ :=
      create_job_store_spec id1 now1 st s (computeConfigHash sha s)
    have hfirst : create_job sha cfg id1 now1 st s
        = .ok (create_job_store id1 now1 st s (computeConfigHash sha s)) := by
      rw [create_job_of_valid sha cfg id1 now1 st s hv]
      cases hlook : list_existing_by_hash st.db (computeConfigHash sha s) with
      | none => rfl
      | some j =>
          rw [hlook] at hstale
          simp only [staleOrNone, Bool.not_eq_true'] at hstale
          simp [hstale]
    refine ⟨hfirst, hid, hstore, ?_⟩
    have hlook2 : list_existing_by_hash
        (create_job_store id1 now1 st s (computeConfigHash sha s)).2.db
        (computeConfigHash sha s)
        = some (create_job_store id1 now1 st s (computeConfigHash sha s)).1 := by
      rw [hdb]
      exact list_existing_append_newest st.db (computeConfigHash sha s) _ hhash
        (fun k hk => by rw [hcreated]; exact hold k hk)
    rw [create_job_of_valid sha cfg id2 now2 _ s hv, hlook2]
    simp [activeStatus, hstatus]

theorem create_job_dedup_witness :
    create_job id defaultSettings 41 3 ⟨[], []⟩ subA
        = .ok (create_job_store 41 3 ⟨[], []⟩ subA (computeConfigHash id subA))
      ∧ (create_job_store 41 3 ⟨[], []⟩ subA (computeConfigHash id subA)).1.id = 41
      ∧ (create_job_store 41 3 ⟨[], []⟩ subA (computeConfigHash id subA)).2.store
          = [] ++ uploadsOf 41 subA
      ∧ create_job id defaultSettings 42 9
            (create_job_store 41 3 ⟨[], []⟩ subA (computeConfigHash id subA)).2 subA
          = .ok ((create_job_store 41 3 ⟨[], []⟩ subA (computeConfigHash id subA)).1,
                 (create_job_store 41 3 ⟨[], []⟩ subA (computeConfigHash id subA)).2) :=
  create_job_dedup.2 id defaultSettings 41 42 3 9 ⟨[], []⟩ subA
    (by decide) (by decide) (by decide)

/-! ## C8 -/

/-- C8 counterexample: a submission whose driving-audio bytes are the empty
byte string but whose driving-audio file NAME has a disallowed extension is
rejected at intake (extension validation fires on the name alone), while
the identical submission with no driving audio at all succeeds — so these
two do not compute the same fingerprint, let alone deduplicate. -/
theorem create_job_empty_audio_cex :
    create_job id defaultSettings 99 5 ⟨[], []⟩ subExe
        = .error "unsupported audio extension"
    ∧ (create_job id defaultSettings 99 5 ⟨[], []⟩ (noAudio subExe)).toOption.isSome
        = true := by decide

/-- C8 (amended): for every submission whose driving-audio bytes are the
empty byte string and whose driving-audio name is absent, empty, or carries
an allowed audio extension, `create_job` behaves exactly as on the
identical submission with no driving audio at all: same fingerprint, audio
size validation skipped, no audio persisted, and the same dedup result. -/
theorem create_job_empty_audio
    (sha : Bytes → Bytes) (cfg : Settings) (newId now : Nat) (st : St)
    (s : Submission)
    (hbytes : s.driving_audio = some [])
    (hname : truthyStr s.driving_audio_name = false
        ∨ validate_extension (s.driving_audio_name.getD "") "audio" = true) :
    create_job sha cfg newId now st s
      = create_job sha cfg newId now st (noAudio s) := by
  have htb : truthyBytes s.driving_audio = false := by
    rw [hbytes]; rfl
  have htbn : truthyBytes none = false := rfl
  have htsn : truthyStr none = false := rfl
  have hcfg : computeConfigHash sha (noAudio s) = computeConfigHash sha s := by
    simp [computeConfigHash, noAudio, audio_hash_part, htb, htbn]
  have hstore : create_job_store newId now st (noAudio s) (computeConfigHash sha s)
      = create_job_store newId now st s (computeConfigHash sha s) := by
    simp [create_job_store, noAudio, htb, htbn, htsn]
  have fn : (noAudio s).driving_audio_name = none := rfl
  have fb : (noAudio s).driving_audio = none := rfl
  have f1 : (noAudio s).reference_video_name = s.reference_video_name := rfl
  have f2 : (noAudio s).source_image_name = s.source_image_name := rfl
  have f3 : (noAudio s).reference_video = s.reference_video := rfl
  have f4 : (noAudio s).source_image = s.source_image := rfl
  rcases hname with hn | hn <;>
    simp [create_job, fn, fb, f1, f2, f3, f4, htb, htbn, htsn, hn, hcfg, hstore]

theorem create_job_empty_audio_witness :
    create_job id defaultSettings 7 2 ⟨[], []⟩ subMp3
      = create_job id defaultSettings 7 2 ⟨[], []⟩ (noAudio subMp3) :=
  create_job_empty_audio id defaultSettings 7 2 ⟨[], []⟩ subMp3
    (by decide) (Or.inr (by decide))

/-! ## Fingerprint lemmas -/

theorem encodeParts_cons (p : Bytes) (ps : List Bytes) :
    encodeParts (p :: ps) = p ++ 124 :: encodeParts ps := by
  simp [encodeParts]

theorem barfree_split (p : Bytes) : ∀ (q r s : Bytes), 124 ∉ p → 124 ∉ q →
    p ++ 124 :: r = q ++ 124 :: s → p = q ∧ r = s := by
  induction p with
  | nil =>
      intro q r s _ hq h
      cases q with
      | nil => simpa using h
      | cons y q' =>
          simp only [List.nil_append, List.cons_append, List.cons.injEq] at h
          exact absurd (by simp [← h.1] : (124 : Nat) ∈ y :: q') hq
  | cons x p' ih =>
      intro q r s hp hq h
      cases q with
      | nil =>
          simp only [List.cons_append, List.nil_append, List.cons.injEq] at h
          exact absurd (by simp [h.1] : (124 : Nat) ∈ x :: p') hp
      | cons y q' =>
          simp only [List.cons_append, List.cons.injEq] at h
          obtain ⟨hxy, h2⟩ := h
          have hr := ih q' r s (fun hm => hp (by simp [hm]))
            (fun hm => hq (by simp [hm])) h2
          exact ⟨by rw [hxy, hr.1], hr.2⟩

theorem encodeParts_inj : ∀ (xs ys : List Bytes),
    (∀ p ∈ xs, 124 ∉ p) → (∀ p ∈ ys, 124 ∉ p) →
    encodeParts xs = encodeParts ys → xs = ys := by
  intro xs
  induction xs with
  | nil =>
      intro ys _ _ h
      cases ys with
      | nil => rfl
      | cons q ys' =>
          rw [encodeParts_cons] at h
          simp [encodeParts] at h
  | cons p xs' ih =>
      intro ys hx hy h
      cases ys with
      | nil =>
          rw [encodeParts_cons] at h
          simp [encodeParts] at h
      | cons q ys' =>
          rw [encodeParts_cons, encodeParts_cons] at h
          obtain ⟨h1, h2⟩ := barfree_split p q _ _
            (hx p (by simp)) (hy q (by simp)) h
          rw [h1, ih ys' (fun m hm => hx m (by simp [hm]))
            (fun m hm => hy m (by simp [hm])) h2]

theorem jobMode_val_bar (m : JobMode) : 124 ∉ strBytes m.val := by
  cases m <;> decide

theorem quality_val_bar (q : QualityTier) : 124 ∉ strBytes q.val := by
  cases q <;> decide

theorem aspect_val_bar (a : Aspect) : 124 ∉ strBytes a.val := by
  cases a <;> decide

theorem pyStr_bar (b : Bool) : 124 ∉ strBytes (pyStr b) := by
  cases b <;> decide

theorem jobMode_val_inj (a b : JobMode) :
    strBytes a.val = strBytes b.val → a = b := by
  cases a <;> cases b <;> decide

theorem quality_val_inj (a b : QualityTier) :
    strBytes a.val = strBytes b.val → a = b := by
  cases a <;> cases b <;> decide

theorem aspect_val_inj (a b : Aspect) :
    strBytes a.val = strBytes b.val → a = b := by
  cases a <;> cases b <;> decide

theorem pyStr_inj (a b : Bool) :
    strBytes (pyStr a) = strBytes (pyStr b) → a = b := by
  cases a <;> cases b <;> decide

/-! ## C7 -/

/-- C7: the fingerprint is a deterministic function of
(mode, quality, enable_4k, aspect ratio, input bytes) only — client file
names do not enter it, so equal-semantics submissions collide — and,
assuming the digest `sha` is collision-free (`Function.Injective`, the
standard SHA-256 assumption) with `|`-free digests, the fingerprint
determines every one of those components: changing any single component
changes the fingerprint (for the driving audio, up to the empty/absent
identification of the audio hash part, see C8). -/
theorem fingerprint_stable_and_discriminating
    (sha : Bytes → Bytes) (hinj : Function.Injective sha)
    (s s' : Submission)
    (hb1 : 124 ∉ sha s.reference_video) (hb2 : 124 ∉ sha s.source_image)
    (hb3 : 124 ∉ audio_hash_part sha s.driving_audio)
    (hb4 : 124 ∉ sha s'.reference_video) (hb5 : 124 ∉ sha s'.source_image)
    (hb6 : 124 ∉ audio_hash_part sha s'.driving_audio) :
    (s.mode = s'.mode → s.quality = s'.quality → s.enable_4k = s'.enable_4k →
      s.aspect = s'.aspect → s.reference_video = s'.reference_video →
      s.source_image = s'.source_image → s.driving_audio = s'.driving_audio →
      computeConfigHash sha s = computeConfigHash sha s')
    ∧ (computeConfigHash sha s = computeConfigHash sha s' →
        s.mode = s'.mode ∧ s.quality = s'.quality ∧ s.enable_4k = s'.enable_4k
          ∧ s.aspect = s'.aspect ∧ s.reference_video = s'.reference_video
          ∧ s.source_image = s'.source_image
          ∧ audio_hash_part sha s.driving_audio
              = audio_hash_part sha s'.driving_audio) := by
  constructor
  · intro e1 e2 e3 e4 e5 e6 e7
    simp [computeConfigHash, audio_hash_part, e1, e2, e3, e4, e5, e6, e7]
  · intro heq
    have hx : ∀ p ∈ [strBytes s.mode.val, strBytes s.quality.val,
        strBytes (pyStr s.enable_4k), strBytes s.aspect.val,
        sha s.reference_video, sha s.source_image,
        audio_hash_part sha s.driving_audio], 124 ∉ p := by
      intro p hp
      simp only [List.mem_cons, List.not_mem_nil, or_false] at hp
      rcases hp with rfl | rfl | rfl | rfl | rfl | rfl | rfl
      · exact jobMode_val_bar _
      · exact quality_val_bar _
      · exact pyStr_bar _
      · exact aspect_val_bar _
      · exact hb1
      · exact hb2
      · exact hb3
    have hy : ∀ p ∈ [strBytes s'.mode.val, strBytes s'.quality.val,
        strBytes (pyStr s'.enable_4k), strBytes s'.aspect.val,
        sha s'.reference_video, sha s'.source_image,
        audio_hash_part sha s'.driving_audio], 124 ∉ p := by
      intro p hp
      simp only [List.mem_cons, List.not_mem_nil, or_false] at hp
      rcases hp with rfl | rfl | rfl | rfl | rfl | rfl | rfl
      · exact jobMode_val_bar _
      · exact quality_val_bar _
      · exact pyStr_bar _
      · exact aspect_val_bar _
      · exact hb4
      · exact hb5
      · exact hb6
    have hlist := encodeParts_inj _ _ hx hy (hinj heq)
    simp only [List.cons.injEq, and_true] at hlist
    obtain ⟨e1, e2, e3, e4, e5, e6, e7⟩ := hlist
    exact ⟨jobMode_val_inj _ _ e1, quality_val_inj _ _ e2, pyStr_inj _ _ e3,
      aspect_val_inj _ _ e4, hinj e5, hinj e6, e7⟩

theorem fingerprint_stable_and_discriminating_witness :
    computeConfigHash id subA = computeConfigHash id subANames
      ∧ computeConfigHash id subA ≠ computeConfigHash id subB := by
  constructor
  · exact (fingerprint_stable_and_discriminating id Function.injective_id subA
      subANames (by decide) (by decide) (by decide) (by decide) (by decide)
      (by decide)).1 rfl rfl rfl rfl rfl rfl rfl
  · intro h
    have hcomp := (fingerprint_stable_and_discriminating id Function.injective_id
      subA subB (by decide) (by decide) (by decide) (by decide) (by decide)
      (by decide)).2 h
    exact absurd hcomp.1 (by decide)

/-! ## Base64 lemmas -/

theorem alphaUrl_ok : ∀ n, n < 64 →
    b64Idx alphaUrl (alphaUrl.getD n 'A') = some n
      ∧ alphaUrl.getD n 'A' ≠ '=' := by decide

theorem b64_decode_encode (alpha : List Char)
    (halpha : ∀ n, n < 64 → b64Idx alpha (alpha.getD n 'A') = some n
        ∧ alpha.getD n 'A' ≠ '=') :
    ∀ (bs : Bytes), (∀ b ∈ bs, b < 256) →
      b64DecodeChars alpha (b64EncodeChars alpha bs) = .ok bs
  | [], _ => rfl
  | [a], h => by
      have ha : a < 256 := h a (by simp)
      obtain ⟨i1, _⟩ := halpha (a / 4) (by omega)
      obtain ⟨i2, _⟩ := halpha ((a % 4) * 16) (by omega)
      simp only [b64EncodeChars, b64DecodeChars, i1, i2]
      simp
      omega
  | [a, b], h => by
      have ha : a < 256 := h a (by simp)
      have hb : b < 256 := h b (by simp)
      obtain ⟨i1, _⟩ := halpha (a / 4) (by omega)
      obtain ⟨i2, _⟩ := halpha ((a % 4) * 16 + b / 16) (by omega)
      obtain ⟨i3, n3⟩ := halpha ((b % 16) * 4) (by omega)
      simp only [List.getD, List.get?_eq_getElem?] at n3
      simp only [b64EncodeChars, b64DecodeChars, i1, i2, i3]
      simp [n3]
      omega
  | a :: b :: c :: rest, h => by
      have ha : a < 256 := h a (by simp)
      have hb : b < 256 := h b (by simp)
      have hc : c < 256 := h c (by simp)
      obtain ⟨i1, _⟩ := halpha (a / 4) (by omega)
      obtain ⟨i2, _⟩ := halpha ((a % 4) * 16 + b / 16) (by omega)
      obtain ⟨i3, _⟩ := halpha ((b % 16) * 4 + c / 64) (by omega)
      obtain ⟨i4, n4⟩ := halpha (c % 64) (by omega)
      have ih := b64_decode_encode alpha halpha rest
        (fun x hx => h x (by simp [hx]))
      simp only [List.getD, List.get?_eq_getElem?] at n4
      simp only [b64EncodeChars, b64DecodeChars, i1, i2, i3, i4, ih]
      simp [n4]
      omega

theorem token_bytes_roundtrip (bs : Bytes) (hb : ∀ b ∈ bs, b < 256) :
    b64decode alphaUrl (b64encode alphaUrl bs) = .ok bs :=
  b64_decode_encode alphaUrl alphaUrl_ok bs hb

/-! ## Splitting and serialization lemmas -/

theorem takeWhile_dropWhile_append {α : Type} (p : α → Bool) :
    ∀ (xs : List α) (y : α) (ys : List α),
      (∀ x ∈ xs, p x = true) → p y = false →
      (xs ++ y :: ys).takeWhile p = xs ∧ (xs ++ y :: ys).dropWhile p = y :: ys := by
  intro xs
  induction xs with
  | nil =>
      intro y ys _ hy
      simp [List.takeWhile, List.dropWhile, hy]
  | cons x xs' ih =>
      intro y ys hx hy
      have hpx : p x = true := hx x (by simp)
      have hr := ih y ys (fun m hm => hx m (by simp [hm])) hy
      simp [List.takeWhile, List.dropWhile, hpx, hr.1, hr.2]

theorem rsplitDot_append (xs ys : Bytes) (hy : (46 : Nat) ∉ ys) :
    rsplitDot (xs ++ 46 :: ys) = some (xs, ys) := by
  unfold rsplitDot
  have hrev : (xs ++ 46 :: ys).reverse = ys.reverse ++ 46 :: xs.reverse := by
    simp
  have hall : ∀ b ∈ ys.reverse, (decide (b ≠ 46)) = true := by
    intro b hb
    simp only [List.mem_reverse] at hb
    simp only [decide_eq_true_eq]
    exact fun h => hy (h ▸ hb)
  have h46 : (decide ((46 : Nat) ≠ 46)) = false := by simp
  have hsplit := takeWhile_dropWhile_append (fun b => decide (b ≠ 46))
    ys.reverse 46 xs.reverse hall h46
  rw [hrev]
  simp only [hsplit.1, hsplit.2]
  simp

theorem digitChar_facts : ∀ m, m < 10 →
    (digitChar m).isDigit = true ∧ (digitChar m).toNat = 48 + m
      ∧ digitChar m ≠ ',' ∧ digitChar m ≠ '"' ∧ (digitChar m).toNat < 256 := by
  decide

theorem natDecimalGo_mem {P : Char → Prop}
    (hd : ∀ m, m < 10 → P (digitChar m)) :
    ∀ (fuel n : Nat) (acc : List Char), n < fuel →
      (∀ c ∈ acc, P c) → ∀ c ∈ natDecimalGo fuel n acc, P c := by
  intro fuel
  induction fuel with
  | zero => intro n acc h; omega
  | succ fuel ih =>
      intro n acc hn hacc c hc
      by_cases h10 : n < 10
      · simp only [natDecimalGo, h10, if_true] at hc
        rcases List.mem_cons.1 hc with rfl | hc
        · exact hd n h10
        · exact hacc c hc
      · simp only [natDecimalGo, h10, if_false] at hc
        refine ih (n / 10) _ (by omega) (fun d hd' => ?_) c hc
        rcases List.mem_cons.1 hd' with rfl | hd2
        · exact hd (n % 10) (by omega)
        · exact hacc d hd2

theorem natDecimal_facts : ∀ n : Nat, ∀ c ∈ natDecimal n,
    c.isDigit = true ∧ c ≠ ',' ∧ c ≠ '"' ∧ c.toNat < 256 := by
  intro n
  exact natDecimalGo_mem
    (fun m hm => by
      obtain ⟨f1, _, f3, f4, f5⟩ := digitChar_facts m hm
      exact ⟨f1, f3, f4, f5⟩)
    (n + 1) n [] (by omega) (by simp)

theorem digitsVal_shift (cs : List Char) : ∀ (i : Nat),
    List.foldl (fun acc c => acc * 10 + (c.toNat - 48)) i cs
      = i * 10 ^ cs.length + digitsVal cs := by
  induction cs with
  | nil => intro i; simp [digitsVal]
  | cons c cs ih =>
      intro i
      simp only [List.foldl_cons, List.length_cons]
      rw [ih (i * 10 + (c.toNat - 48))]
      have hd : digitsVal (c :: cs)
          = (c.toNat - 48) * 10 ^ cs.length + digitsVal cs := by
        show List.foldl _ (0 * 10 + (c.toNat - 48)) cs = _
        rw [ih (0 * 10 + (c.toNat - 48))]
        simp
      rw [hd, pow_succ]
      ring

theorem digitsVal_cons (c : Char) (cs : List Char) :
    digitsVal (c :: cs) = (c.toNat - 48) * 10 ^ cs.length + digitsVal cs := by
  show List.foldl _ (0 * 10 + (c.toNat - 48)) cs = _
  rw [digitsVal_shift]
  simp

theorem digitsVal_natDecimalGo : ∀ (fuel n : Nat) (acc : List Char), n < fuel →
    digitsVal (natDecimalGo fuel n acc)
      = n * 10 ^ acc.length + digitsVal acc := by
  intro fuel
  induction fuel with
  | zero => intro n acc h; omega
  | succ fuel ih =>
      intro n acc hn
      by_cases h10 : n < 10
      · simp only [natDecimalGo, h10, if_true]
        rw [digitsVal_cons, (digitChar_facts n h10).2.1]
        have h48 : 48 + n - 48 = n := by omega
        rw [h48]
      · simp only [natDecimalGo, h10, if_false]
        rw [ih (n / 10) _ (by omega), digitsVal_cons,
          (digitChar_facts (n % 10) (by omega)).2.1]
        simp only [List.length_cons, pow_succ]
        have h48 : 48 + n % 10 - 48 = n % 10 := by omega
        rw [h48]
        have key : n / 10 * (10 ^ acc.length * 10) + (n % 10) * 10 ^ acc.length
            = n * 10 ^ acc.length := by
          have hmod : n / 10 * 10 + n % 10 = n := by omega
          calc n / 10 * (10 ^ acc.length * 10) + (n % 10) * 10 ^ acc.length
              = (n / 10 * 10 + n % 10) * 10 ^ acc.length := by ring
            _ = n * 10 ^ acc.length := by rw [hmod]
        linarith [key]

theorem digitsVal_natDecimal : ∀ n : Nat, digitsVal (natDecimal n) = n := by
  intro n
  unfold natDecimal
  rw [digitsVal_natDecimalGo (n + 1) n [] (by omega)]
  simp [digitsVal]

theorem natDecimal_ne_nil (n : Nat) : natDecimal n ≠ [] := by
  unfold natDecimal
  have : ∀ (fuel m : Nat) (acc : List Char), m < fuel → acc ≠ [] ∨ True →
      natDecimalGo fuel m acc ≠ [] := by
    intro fuel
    induction fuel with
    | zero => intro m acc h; omega
    | succ fuel ih =>
        intro m acc hm _
        by_cases h10 : m < 10
        · simp [natDecimalGo, h10]
        · simp only [natDecimalGo, h10, if_false]
          exact ih (m / 10) _ (by omega) (Or.inl (by simp))
  exact this (n + 1) n [] (by omega) (Or.inr trivial)

theorem dropLit_self : ∀ (cs rest : List Char), dropLit cs (cs ++ rest) = some rest := by
  intro cs
  induction cs with
  | nil => intro rest; rfl
  | cons c cs' ih => intro rest; simp [dropLit, ih]

theorem map_ofNat_toNat : ∀ (cs : List Char),
    (cs.map Char.toNat).map Char.ofNat = cs := by
  intro cs
  induction cs with
  | nil => rfl
  | cons c cs' ih => simp [ih, Char.ofNat_toNat]

theorem parse_serialize (path : String) (exp : Nat) (hq : '"' ∉ path.data) :
    parsePayloadChars (serializePayloadChars path exp) = some (exp, path) := by
  have hds : ∀ c ∈ natDecimal exp, Char.isDigit c = true :=
    fun c hc => (natDecimal_facts exp c hc).1
  have hcomma : Char.isDigit ',' = false := by decide
  have hqf : ∀ c ∈ path.data, (decide (c ≠ '"')) = true := by
    intro c hc
    simp only [decide_eq_true_eq]
    exact fun h => hq (h ▸ hc)
  have hqq : (decide ('"' ≠ '"')) = false := by simp
  have htw := takeWhile_dropWhile_append Char.isDigit (natDecimal exp) ','
    ("\"path\":\"".data ++ (path.data ++ "\"\x7d".data)) hds hcomma
  have htw2 := takeWhile_dropWhile_append (fun c => decide (c ≠ '"')) path.data '"'
    ['\x7d'] hqf hqq
  have hdl2 : ∀ rest : List Char,
      dropLit ",\"path\":\"".data (',' :: ("\"path\":\"".data ++ rest)) = some rest := by
    intro rest
    rw [show (",\"path\":\"".data : List Char) = ',' :: "\"path\":\"".data from by decide]
    simp [dropLit, dropLit_self]
  have hend : ("\"\x7d".data : List Char) = '"' :: ['\x7d'] := by decide
  have hde : dropLit "\"\x7d".data ('"' :: ['\x7d']) = some [] := by decide
  have hmk : String.mk path.data = path := by cases path; rfl
  unfold serializePayloadChars parsePayloadChars
  have hshape : "\x7b\"exp\":".data ++ natDecimal exp ++ ",\"path\":\"".data
        ++ path.data ++ "\"\x7d".data
      = "\x7b\"exp\":".data ++ (natDecimal exp
        ++ ',' :: ("\"path\":\"".data ++ (path.data ++ "\"\x7d".data))) := by
    simp
  rw [hshape, dropLit_self]
  simp only [htw.1, htw.2, hdl2]
  rw [show (path.data ++ "\"\x7d".data) = path.data ++ '"' :: ['\x7d'] from by
    rw [hend]]
  simp only [htw2.1, htw2.2, hde]
  simp [natDecimal_ne_nil exp, digitsVal_natDecimal, hmk]

theorem serialize_bytes_lt (path : String) (exp : Nat)
    (hp : ∀ c ∈ path.data, c.toNat < 256) :
    ∀ b ∈ (serializePayloadChars path exp).map Char.toNat, b < 256 := by
  have l1 : ∀ c ∈ ("\x7b\"exp\":".data : List Char), c.toNat < 256 := by decide
  have l2 : ∀ c ∈ (",\"path\":\"".data : List Char), c.toNat < 256 := by decide
  have l3 : ∀ c ∈ ("\"\x7d".data : List Char), c.toNat < 256 := by decide
  intro b hb
  obtain ⟨c, hc, rfl⟩ := List.mem_map.1 hb
  unfold serializePayloadChars at hc
  simp only [List.append_assoc, List.mem_append] at hc
  rcases hc with h | h | h | h | h
  · exact l1 c h
  · exact (natDecimal_facts exp c h).2.2.2
  · exact l2 c h
  · exact hp c h
  · exact l3 c h

theorem verify_sign_aux (mac : Bytes → Bytes → String) (secret path : String)
    (exp nowT : Nat)
    (hp : ∀ c ∈ path.data, c.toNat < 256) (hq : '"' ∉ path.data)
    (hm : ∀ c ∈ (mac (strBytes secret)
        ((serializePayloadChars path exp).map Char.toNat)).data,
      c.toNat < 256 ∧ c ≠ '.') :
    verify_token mac secret nowT (sign_token mac secret path exp)
      = (if exp < nowT then .error .expired else .ok (path, exp)) := by
  have hb : ∀ b ∈ ((serializePayloadChars path exp).map Char.toNat)
      ++ 46 :: strBytes (mac (strBytes secret)
        ((serializePayloadChars path exp).map Char.toNat)), b < 256 := by
    intro b hb
    rcases List.mem_append.1 hb with h | h
    · exact serialize_bytes_lt path exp hp b h
    · rcases List.mem_cons.1 h with rfl | h
      · omega
      · obtain ⟨c, hc, rfl⟩ := List.mem_map.1 h
        exact (hm c hc).1
  have h46 : (46 : Nat) ∉ strBytes (mac (strBytes secret)
      ((serializePayloadChars path exp).map Char.toNat)) := by
    intro h
    obtain ⟨c, hc, he⟩ := List.mem_map.1 h
    apply (hm c hc).2
    rw [← Char.ofNat_toNat c, he]
  unfold verify_token sign_token
  rw [token_bytes_roundtrip _ hb]
  simp only [rsplitDot_append _ _ h46, map_ofNat_toNat, parse_serialize path exp hq]
  simp

/-! ## C5 -/

/-- C5 counterexample: `tokWmut` is a single-bit mutation of the signed
token `tokW` (bit 6 of the first character, turning base64 `e` into `%`,
which is outside the base64 alphabet), yet `verify` rejects it as a
malformed token — not with `InvalidSignature` as the claim demands. -/
theorem token_bitflip_not_invalid_signature :
    verify_token macW "s" 0 tokW = .ok ("p", 5)
    ∧ (tokWmut.data.headD 'A').toNat ^^^ (tokW.data.headD 'A').toNat = 64
    ∧ tokWmut.data.tail = tokW.data.tail
    ∧ tokWmut.length = tokW.length
    ∧ verify_token macW "s" 0 tokWmut = .error .malformed
    ∧ VerifyError.malformed ≠ VerifyError.invalidSignature := by decide

/-- C5 (amended): `verify(sign(loc, ttl))` returns the location while
`now ≤ expiry` and rejects with `Expired` once `now > expiry`; a token
whose signature part is not the recomputed MAC of its payload is rejected
with `InvalidSignature` regardless of expiry (the signature is checked
first); and a token that does not base64-decode, or decodes without a
payload/signature separator, is rejected as malformed rather than with
`InvalidSignature` (hence single-bit mutations are always rejected, but
only those preserving a well-formed token yield `InvalidSignature`). -/
theorem token_sign_verify :
    (∀ (mac : Bytes → Bytes → String) (secret path : String) (exp nowT : Nat),
      (∀ c ∈ path.data, c.toNat < 256) → '"' ∉ path.data →
      (∀ c ∈ (mac (strBytes secret)
          ((serializePayloadChars path exp).map Char.toNat)).data,
        c.toNat < 256 ∧ c ≠ '.') →
      nowT ≤ exp →
      verify_token mac secret nowT (sign_token mac secret path exp)
        = .ok (path, exp))
    ∧ (∀ (mac : Bytes → Bytes → String) (secret path : String) (exp nowT : Nat),
      (∀ c ∈ path.data, c.toNat < 256) → '"' ∉ path.data →
      (∀ c ∈ (mac (strBytes secret)
          ((serializePayloadChars path exp).map Char.toNat)).data,
        c.toNat < 256 ∧ c ≠ '.') →
      exp < nowT →
      verify_token mac secret nowT (sign_token mac secret path exp)
        = .error .expired)
    ∧ (∀ (mac : Bytes → Bytes → String) (secret : String) (nowT : Nat)
        (body sig : Bytes),
      (∀ b ∈ body, b < 256) → (∀ b ∈ sig, b < 256) → (46 : Nat) ∉ sig →
      sig ≠ strBytes (mac (strBytes secret) body) →
      verify_token mac secret nowT (b64encode alphaUrl (body ++ 46 :: sig))
        = .error .invalidSignature)
    ∧ (∀ (mac : Bytes → Bytes → String) (secret token : String) (nowT : Nat)
        (e : String),
      b64decode alphaUrl token = .error e →
      verify_token mac secret nowT token = .error .malformed)
    ∧ (∀ (mac : Bytes → Bytes → String) (secret token : String) (nowT : Nat)
        (bs : Bytes),
      b64decode alphaUrl token = .ok bs → rsplitDot bs = none →
      verify_token mac secret nowT token = .error .malformed) := by
  refine ⟨?_, ?_, ?_, ?_, ?_⟩
  · intro mac secret path exp nowT hp hq hm hle
    rw [verify_sign_aux mac secret path exp nowT hp hq hm]
    simp [Nat.not_lt.2 hle]
  · intro mac secret path exp nowT hp hq hm hlt
    rw [verify_sign_aux mac secret path exp nowT hp hq hm]
    simp [hlt]
  · intro mac secret nowT body sig hbody hsig h46 hne
    have hb : ∀ b ∈ body ++ 46 :: sig, b < 256 := by
      intro b hb
      rcases List.mem_append.1 hb with h | h
      · exact hbody b h
      · rcases List.mem_cons.1 h with rfl | h
        · omega
        · exact hsig b h
    unfold verify_token
    rw [token_bytes_roundtrip _ hb]
    simp only [rsplitDot_append _ _ h46]
    simp [hne]
  · intro mac secret token nowT e hdec
    unfold verify_token
    rw [hdec]
  · intro mac secret token nowT bs hdec hsplit
    unfold verify_token
    rw [hdec]
    simp only [hsplit]

theorem token_sign_verify_witness :
    verify_token macW "s" 5 (sign_token macW "s" "p" 5) = .ok ("p", 5)
    ∧ verify_token macW "s" 6 (sign_token macW "s" "p" 5) = .error .expired
    ∧ verify_token macW "s" 99 (b64encode alphaUrl
          (((serializePayloadChars "p" 0).map Char.toNat) ++ 46 :: strBytes "ff"))
        = .error .invalidSignature :=
  ⟨token_sign_verify.1 macW "s" "p" 5 5 (by decide) (by decide) (by decide)
      (by decide),
   token_sign_verify.2.1 macW "s" "p" 5 6 (by decide) (by decide) (by decide)
      (by decide),
   token_sign_verify.2.2.1 macW "s" 99 ((serializePayloadChars "p" 0).map Char.toNat)
      (strBytes "ff") (by decide) (by decide) (by decide) (by decide)⟩

end FaceSwap
